import Mathlib

/-!
Verification development for the medifinder-web LLM/tool bridge.

The Python sources embedded here (shallowly, as executable Lean
definitions) are:
  app/llm/client.py   -- LLMClient.generate_response, _extract_tool_calls,
                         _format_tool_result
  app/routes/main.py  -- the chat endpoint's streaming generator
  tool_runner.py      -- result_to_dict and the subprocess entry point

Text is modelled as lists of characters (Python indexes strings by code
point, which a Lean character list mirrors exactly).  The Anthropic API,
the subprocess runner, and the MCP host are external collaborators; they
enter the model as function parameters whose invocations are recorded in
an explicit trace, so theorems can speak about which calls were made and
in which order.
-/

set_option maxRecDepth 100000

namespace Medifinder

abbrev Chars := List Char

/-- Python str.strip and the regex class \s, restricted to the ASCII
whitespace characters that can occur in this system's texts. -/
def isPySpace (c : Char) : Bool :=
  c = ' ' || c = '\t' || c = '\n' || c = '\x0d' || c = '\x0b' || c = '\x0c'

/-- Regex word character \w (ASCII letters, digits, underscore; the tool
names matched by the patterns are all ASCII). -/
def isWordChar (c : Char) : Bool :=
  c.isAlphanum || c = '_'

/-- Match a literal string as a prefix of the character stream, returning
the remainder on success (the building block for the literal parts of the
recognition regexes). -/
def matchLit : Chars → Chars → Option Chars
  | [], s => some s
  | _ :: _, [] => none
  | p :: ps, c :: cs => if c = p then matchLit ps cs else none

/-- Substring test (Python `pat in hay` for strings). -/
def hasSub (hay pat : Chars) : Bool :=
  if pat.isPrefixOf hay then true
  else
    match hay with
    | [] => false
    | _ :: t => hasSub t pat

/-- Python str.strip(): remove leading and trailing whitespace. -/
def pyStrip (s : Chars) : Chars :=
  ((s.dropWhile isPySpace).reverse.dropWhile isPySpace).reverse

/-- Case folding used for re.IGNORECASE checks.  The error-phrase
patterns and the sentences they are matched against are compared after
lowercasing; Char.toLower covers the ASCII range, which is what the
uppercase/lowercase variation in practice involves. -/
def lowerChars (s : Chars) : Chars :=
  s.map Char.toLower

/-- JSON values as produced by json.loads on the argument spans and the
tool subprocess output.  Numbers are modelled as integers: every numeric
argument in this system (medicine ids, stock minimums) is integral. -/
inductive Json where
  | null
  | bool (b : Bool)
  | num (n : Int)
  | str (s : String)
  | arr (elems : List Json)
  | obj (fields : List (String × Json))
deriving Repr

/-- JSON whitespace accepted between tokens by json.loads. -/
def isJsonWs (c : Char) : Bool :=
  c = ' ' || c = '\t' || c = '\n' || c = '\x0d'

def skipWs (s : Chars) : Chars := s.dropWhile isJsonWs

/-- String-body scanner for the JSON parser: characters until the closing
quote, decoding the escapes this system's payloads can contain
(backslash-quote, backslash-backslash, slash, n, t, r, b, f).  Other
escapes are rejected, as json.loads rejects invalid escapes. -/
def parseStrBody : Chars → Option (Chars × Chars)
  | [] => none
  | '"' :: rest => some ([], rest)
  | '\\' :: e :: rest =>
    let dec : Option Char :=
      if e = '"' then some '"'
      else if e = '\\' then some '\\'
      else if e = '/' then some '/'
      else if e = 'n' then some '\n'
      else if e = 't' then some '\t'
      else if e = 'r' then some '\x0d'
      else if e = 'b' then some '\x08'
      else if e = 'f' then some '\x0c'
      else none
    match dec with
    | some c => (parseStrBody rest).map (fun p => (c :: p.1, p.2))
    | none => none
  | '\\' :: [] => none
  | c :: rest => (parseStrBody rest).map (fun p => (c :: p.1, p.2))

/-- Digit run to a natural number (decimal). -/
def digitsToNat : Chars → Nat → Nat
  | [], acc => acc
  | c :: cs, acc => digitsToNat cs (acc * 10 + (c.toNat - '0'.toNat))

/-- Integer literal: optional minus sign followed by one or more digits. -/
def parseIntLit (s : Chars) : Option (Int × Chars) :=
  match s with
  | '-' :: rest =>
    let ds := rest.takeWhile Char.isDigit
    if ds.isEmpty then none
    else some (-(Int.ofNat (digitsToNat ds 0)), rest.dropWhile Char.isDigit)
  | _ =>
    let ds := s.takeWhile Char.isDigit
    if ds.isEmpty then none
    else some (Int.ofNat (digitsToNat ds 0), s.dropWhile Char.isDigit)

mutual

/-- Recursive-descent JSON value parser (fuel-bounded; the top-level
entry point supplies enough fuel for any input of the given length). -/
def parseVal : Nat → Chars → Option (Json × Chars)
  | 0, _ => none
  | fuel + 1, s =>
    match skipWs s with
    | [] => none
    | c :: cs =>
      if c = 'n' then (matchLit "null".data (c :: cs)).map (fun r => (Json.null, r))
      else if c = 't' then (matchLit "true".data (c :: cs)).map (fun r => (Json.bool true, r))
      else if c = 'f' then (matchLit "false".data (c :: cs)).map (fun r => (Json.bool false, r))
      else if c = '"' then (parseStrBody cs).map (fun p => (Json.str (String.mk p.1), p.2))
      else if c = '\x7b' then
        match skipWs cs with
        | '\x7d' :: rest => some (Json.obj [], rest)
        | other => (parseFields fuel other).map (fun p => (Json.obj p.1, p.2))
      else if c = '[' then
        match skipWs cs with
        | ']' :: rest => some (Json.arr [], rest)
        | other => (parseElems fuel other).map (fun p => (Json.arr p.1, p.2))
      else
        (parseIntLit (c :: cs)).map (fun p => (Json.num p.1, p.2))

/-- Comma-separated member list of a JSON object, up to the closing
brace. -/
def parseFields : Nat → Chars → Option (List (String × Json) × Chars)
  | 0, _ => none
  | fuel + 1, s =>
    match skipWs s with
    | '"' :: cs =>
      match parseStrBody cs with
      | none => none
      | some (key, afterKey) =>
        match skipWs afterKey with
        | ':' :: afterColon =>
          match parseVal fuel afterColon with
          | none => none
          | some (v, afterVal) =>
            match skipWs afterVal with
            | ',' :: rest =>
              (parseFields fuel rest).map (fun p => ((String.mk key, v) :: p.1, p.2))
            | '\x7d' :: rest => some ([(String.mk key, v)], rest)
            | _ => none
        | _ => none
    | _ => none

/-- Comma-separated element list of a JSON array, up to the closing
bracket. -/
def parseElems : Nat → Chars → Option (List Json × Chars)
  | 0, _ => none
  | fuel + 1, s =>
    match parseVal fuel s with
    | none => none
    | some (v, afterVal) =>
      match skipWs afterVal with
      | ',' :: rest => (parseElems fuel rest).map (fun p => (v :: p.1, p.2))
      | ']' :: rest => some ([v], rest)
      | _ => none

end

/-- json.loads: parse a complete JSON document; trailing content other
than whitespace is an error. -/
def parseJson (s : String) : Option Json :=
  match parseVal (s.length + 1) s.data with
  | some (v, rest) => if (skipWs rest).isEmpty then some v else none
  | none => none

/-- String escaping of json.dumps for the characters that occur in this
system's payloads. -/
def dumpStrChars : Chars → Chars
  | [] => []
  | c :: cs =>
    (if c = '"' then ['\\', '"']
     else if c = '\\' then ['\\', '\\']
     else if c = '\n' then ['\\', 'n']
     else if c = '\t' then ['\\', 't']
     else if c = '\x0d' then ['\\', 'r']
     else [c]) ++ dumpStrChars cs

def dumpStr (s : String) : String :=
  String.mk ('"' :: dumpStrChars s.data ++ ['"'])

mutual

/-- json.dumps with default separators (", " between items, ": " after
keys), as used for the subprocess argument and the synthetic result
message. -/
def Json.dump : Json → String
  | .null => "null"
  | .bool true => "true"
  | .bool false => "false"
  | .num n => toString n
  | .str s => dumpStr s
  | .arr xs => "[" ++ dumpJsonList xs ++ "]"
  | .obj fs => "\x7b" ++ dumpJsonFields fs ++ "\x7d"

def dumpJsonList : List Json → String
  | [] => ""
  | [x] => Json.dump x
  | x :: y :: rest => Json.dump x ++ ", " ++ dumpJsonList (y :: rest)

def dumpJsonFields : List (String × Json) → String
  | [] => ""
  | [kv] => dumpStr kv.1 ++ ": " ++ Json.dump kv.2
  | kv :: kv2 :: rest => dumpStr kv.1 ++ ": " ++ Json.dump kv.2 ++ ", " ++ dumpJsonFields (kv2 :: rest)

end

mutual

/-- json.dumps with indent=2 (ensure_ascii=False), used by
_format_tool_result for dictionary results.  lvl is the current
indentation width. -/
def dumpInd (lvl : Nat) : Json → String
  | .null => "null"
  | .bool true => "true"
  | .bool false => "false"
  | .num n => toString n
  | .str s => dumpStr s
  | .arr [] => "[]"
  | .arr (x :: xs) =>
    "[\n" ++ dumpIndList (lvl + 2) (x :: xs) ++ "\n" ++ String.mk (List.replicate lvl ' ') ++ "]"
  | .obj [] => "\x7b\x7d"
  | .obj (kv :: kvs) =>
    "\x7b\n" ++ dumpIndFields (lvl + 2) (kv :: kvs) ++ "\n" ++ String.mk (List.replicate lvl ' ') ++ "\x7d"

def dumpIndList (lvl : Nat) : List Json → String
  | [] => ""
  | [x] => String.mk (List.replicate lvl ' ') ++ dumpInd lvl x
  | x :: y :: rest =>
    String.mk (List.replicate lvl ' ') ++ dumpInd lvl x ++ ",\n" ++ dumpIndList lvl (y :: rest)

def dumpIndFields (lvl : Nat) : List (String × Json) → String
  | [] => ""
  | [kv] => String.mk (List.replicate lvl ' ') ++ dumpStr kv.1 ++ ": " ++ dumpInd lvl kv.2
  | kv :: kv2 :: rest =>
    String.mk (List.replicate lvl ' ') ++ dumpStr kv.1 ++ ": " ++ dumpInd lvl kv.2 ++ ",\n" ++
      dumpIndFields lvl (kv2 :: rest)

end

/-!
Tool-call extraction (LLMClient._extract_tool_calls).

Each recognition regex in client.py has the shape

  (verb alternation) (connector) (\w+) " con argumentos: " (\x7b.*?\x7d)

compiled with re.DOTALL.  Because the connector begins with a space
(a non-word character), the greedy \w+ never backtracks usefully: a
match is exactly a verb alternative, the literal connector, a maximal
nonempty word-character run, the literal " con argumentos: ", and the
lazy brace group, which extends from the opening brace to the first
closing brace after it.  re.finditer yields non-overlapping matches,
scanning left to right and resuming after each match.
-/

/-- One pattern family: the verb alternatives (tried in regex
alternation order) and the connector between verb and tool name. -/
structure Fam where
  verbs : List String
  connector : String

/-- Main pattern: "Uso la herramienta (\w+) con argumentos: (...)". -/
def mainFam : Fam := ⟨["Uso"], " la herramienta "⟩

/-- First alternative family. -/
def altFam1 : Fam := ⟨["Usaré", "Voy a usar", "Usando", "Utilizaré", "Utilizo"], " la herramienta "⟩

/-- Second alternative family (connector includes the "a"). -/
def altFam2 : Fam := ⟨["Llamaré", "Llamo", "Invoco", "Invocaré"], " a la herramienta "⟩

/-- Third alternative family. -/
def altFam3 : Fam := ⟨["Ejecutaré", "Ejecuto"], " la herramienta "⟩

/-- Lazy brace group \x7b.*?\x7d after its opening brace: the body up to
the first closing brace, plus the remainder after that brace. -/
def splitAtClose : Chars → Option (Chars × Chars)
  | [] => none
  | c :: cs =>
    if c = '\x7d' then some ([], cs)
    else (splitAtClose cs).map (fun p => (c :: p.1, p.2))

/-- Attempt to match one pattern family anchored at the head of the
stream; on success return the tool name (group 1), the argument span
including braces (group 2), and the remainder after the match. -/
def famMatchHere (f : Fam) (s : Chars) : Option (String × String × Chars) :=
  f.verbs.findSome? fun v =>
    match matchLit (v ++ f.connector).data s with
    | none => none
    | some r1 =>
      let w := r1.takeWhile isWordChar
      if w.isEmpty then none
      else
        match matchLit " con argumentos: ".data (r1.dropWhile isWordChar) with
        | none => none
        | some r2 =>
          match r2 with
          | '\x7b' :: r3 =>
            (splitAtClose r3).map fun p =>
              (String.mk w, String.mk ('\x7b' :: p.1 ++ ['\x7d']), p.2)
          | _ => none

/-- A raw regex match: captured name and argument span, and the match's
start and end offsets in the scanned text. -/
structure RawMatch where
  name : String
  argSpan : String
  startIdx : Nat
  endIdx : Nat
deriving Repr, DecidableEq

/-- re.finditer for one family: scan left to right, emit non-overlapping
matches, resume after each match (fuel decreases once per step; every
match consumes at least one character, so fuel equal to the text length
suffices). -/
def famFindAux (f : Fam) : Nat → Chars → Nat → List RawMatch
  | 0, _, _ => []
  | _ + 1, [], _ => []
  | fuel + 1, c :: cs, pos =>
    match famMatchHere f (c :: cs) with
    | some (n, a, rest) =>
      let consumed := (c :: cs).length - rest.length
      ⟨n, a, pos, pos + consumed⟩ :: famFindAux f fuel rest (pos + consumed)
    | none => famFindAux f fuel cs (pos + 1)

def famFind (f : Fam) (t : String) : List RawMatch :=
  famFindAux f t.data.length t.data 0

/-- The hardcoded known-tool list of _extract_tool_calls. -/
def knownToolNames : List String :=
  ["search_medicines", "get_medicine_locations",
   "get_medicine_stock", "get_regional_statistics",
   "get_medicine_status", "diagnose_database",
   "troubleshoot_connection", "create_database_schema"]

/-- A tool call accepted by extraction: validated name and parsed
arguments. -/
structure ToolCall where
  name : String
  args : Json
deriving Repr

/-- Per-match validation loop of _extract_tool_calls: keep a match only
if its name is in the hardcoded known-tool list and its argument span
parses as JSON; otherwise skip it (logged in the source) and continue
with the remaining matches. -/
def validateMatches : List RawMatch → List ToolCall
  | [] => []
  | r :: rs =>
    if knownToolNames.contains r.name then
      match parseJson (String.mk (pyStrip r.argSpan.data)) with
      | some a => ⟨r.name, a⟩ :: validateMatches rs
      | none => validateMatches rs
    else validateMatches rs

/-- LLMClient._extract_tool_calls: the main pattern is scanned first; if
it produced no accepted call, all three alternative families are scanned
and their accepted calls concatenated in family order. -/
def extract_tool_calls (t : String) : List ToolCall :=
  let main := validateMatches (famFind mainFam t)
  if main.isEmpty then
    validateMatches (famFind altFam1 t) ++ validateMatches (famFind altFam2 t) ++
      validateMatches (famFind altFam3 t)
  else main

/-- Tool-mention collection of generate_response (lines 120-141): all
four patterns are scanned over the full text and the matches pooled. -/
def findMentions (t : String) : List RawMatch :=
  famFind mainFam t ++ famFind altFam1 t ++ famFind altFam2 t ++ famFind altFam3 t

/-- The source sorts the pooled mentions by start position (stable sort)
and takes the last one: the mention with the greatest start offset,
later pool entries winning ties. -/
def lastMention (ms : List RawMatch) : Option RawMatch :=
  ms.foldl
    (fun acc m =>
      match acc with
      | none => some m
      | some b => if b.startIdx ≤ m.startIdx then some m else some b)
    none

/-!
Display-text computation (generate_response lines 116-228): truncate the
model text shortly after the last tool mention, drop sentences that match
a hallucinated-failure phrase, rejoin, and append an ellipsis when the
result does not end in terminal punctuation.
-/

/-- The characters treated as sentence ends by the truncation scan and
the final endswith check (source lists them as period, bang, question
mark, newline). -/
def terminalChars : List Char := ['.', '!', '?', '\n']

/-- The sentence splitter's lookbehind class [.!?] (no newline). -/
def splitPunct : List Char := ['.', '!', '?']

/-- Count of characters to skip until the next terminal character (the
while loop at lines 151-152), capped at the end of the text. -/
def distToTerminal : Chars → Nat
  | [] => 0
  | c :: cs => if terminalChars.contains c then 0 else 1 + distToTerminal cs

/-- Cut position: fifty characters past the end of the last mention,
extended to the next terminal character, which is included when found
before the end of the text. -/
def cutPos (text : Chars) (mentionEnd : Nat) : Nat :=
  let p := min (mentionEnd + 50) text.length
  let q := p + distToTerminal (text.drop p)
  if q < text.length then q + 1 else q

theorem length_dropWhile_le (p : Char → Bool) (l : Chars) :
    (l.dropWhile p).length ≤ l.length := by
  induction l with
  | nil => simp [List.dropWhile]
  | cons c cs ih =>
    by_cases h : p c
    · simp only [List.dropWhile, h]
      exact Nat.le_succ_of_le ih
    · simp [List.dropWhile, h]

/-- re.split on the pattern "(?<=[.!?])\s+": a separator is a maximal
whitespace run whose preceding character is a period, bang or question
mark.  cur holds the current sentence reversed.  The fuel decreases
once per step while every step consumes at least one character, so the
top-level entry point's fuel never runs out. -/
def splitSentencesAux : Nat → Chars → Chars → List Chars
  | 0, _, cur => [cur.reverse]
  | _ + 1, [], cur => [cur.reverse]
  | fuel + 1, c :: cs, cur =>
    if isPySpace c && cur.head?.elim false (fun p => splitPunct.contains p) then
      cur.reverse :: splitSentencesAux fuel (cs.dropWhile isPySpace) []
    else
      splitSentencesAux fuel cs (c :: cur)

def splitSentences (s : Chars) : List Chars := splitSentencesAux (s.length + 1) s []

/-- The fixed apology/failure phrases (error_patterns, lines 162-183).
Each is a literal pattern searched with re.IGNORECASE. -/
def errorPatterns : List String :=
  ["Lo siento, parece que estoy teniendo problemas",
   "Lo siento, parece que hay un problema",
   "No puedo conectarme",
   "Error al acceder",
   "No fue posible ejecutar",
   "Hay un problema con",
   "No se pudo completar",
   "Parece que hay un error",
   "No estoy pudiendo acceder",
   "No consigo conectarme",
   "Tengo problemas para acceder",
   "La conexión al sistema",
   "El sistema no está respondiendo",
   "No logro obtener",
   "Estoy experimentando dificultades",
   "No puedo usar la herramienta",
   "La herramienta no está disponible",
   "No puedo obtener información",
   "Hay dificultades técnicas",
   "El servicio no está disponible"]

/-- Does the sentence contain one of the failure phrases
(case-insensitive substring search)? -/
def containsError (s : Chars) : Bool :=
  errorPatterns.any fun p => hasSub (lowerChars s) (lowerChars p.data)

/-- Does the sentence contain a main-pattern tool mention (the chunk
finalization test at line 208)?  Case-sensitive substring checks. -/
def containsToolMarker (s : Chars) : Bool :=
  hasSub s "Uso la herramienta".data && hasSub s "con argumentos:".data

/-- The sentence loop of lines 186-215: sentences that contain a failure
phrase are dropped; surviving sentences accumulate into the current
chunk (space-separated); a sentence containing the tool marker finalizes
the current chunk when it is nonempty.  Returns the chunk list. -/
def buildChunks : List Chars → Chars → List Chars → List Chars
  | [], cur, acc => acc ++ (if cur.isEmpty then [] else [cur])
  | s :: rest, cur, acc =>
    let cur2 := if containsError s then cur else if cur.isEmpty then s else cur ++ (' ' :: s)
    if containsToolMarker s then
      if cur2.isEmpty then buildChunks rest [] acc
      else buildChunks rest [] (acc ++ [cur2])
    else buildChunks rest cur2 acc

/-- Python " ".join: empty for the empty list, otherwise the pieces
interleaved with single spaces. -/
def joinSp : List Chars → Chars
  | [] => []
  | [x] => x
  | x :: y :: rest => x ++ ' ' :: joinSp (y :: rest)

/-- Reassembly of the surviving chunks (lines 218-222): join with single
spaces; if the result does not end in terminal punctuation, append an
ellipsis marker. -/
def reassemble (sentences : List Chars) : Chars :=
  let joined := joinSp (buildChunks sentences [] [])
  if joined.getLast?.elim false (fun c => terminalChars.contains c) then joined
  else joined ++ "...".data

/-- Full display-text computation for a model text that produced tool
mentions: truncate at the cut position derived from the last mention,
split into sentences, filter and reassemble.  When the pooled mention
list is empty the source keeps the raw text (filtered_response stays
response_content). -/
def displayTextOf (t : String) : String :=
  match lastMention (findMentions t) with
  | none => t
  | some m =>
    String.mk (reassemble (splitSentences (t.data.take (cutPos t.data m.endIdx))))

/-!
The response orchestrator: LLMClient.generate_response.

The Anthropic API and the tool subprocess are external; they appear as
the function fields of Env.  The generator's yielded dictionaries become
the Event list; every model-API call and every subprocess launch is
recorded in a trace so ordering claims can be stated.  The system prompt
is passed unchanged to every messages.create call and does not influence
the orchestrator's control flow, so the model function abstracts over
it.
-/

structure Msg where
  role : String
  content : String
deriving Repr, DecidableEq

/-- The stream events yielded by generate_response (the type fields of
the yielded dictionaries). -/
inductive Event where
  | start
  | chunk (content : String)
  | tool_use (name : String) (args : Json)
  | tool_result (id : String) (result : String)
  | follow_up (content : String)
  | tool_error (error : String)
  | complete (content : String)
  | error (error : String)
deriving Repr

/-- External calls made during a turn, in order: model generations and
tool subprocess launches. -/
inductive TraceEntry where
  | modelCall (msgs : List Msg)
  | hostCall (name : String) (argsJson : String)
deriving Repr, DecidableEq

/-- Outcome of subprocess.run on the tool runner: expiry of the
30-second timeout, or exit with a return code, stdout and stderr. -/
inductive SubpRes where
  | timeout
  | exited (returncode : Int) (stdout : String) (stderr : String)
deriving Repr

/-- The orchestrator's external collaborators. -/
structure Env where
  model : List Msg → Except String String
  toolRunnerExists : Bool
  run : String → String → SubpRes

/-- Python str() of a value parsed from JSON (repr semantics inside
containers; the exact rendering is not load-bearing for any claim). -/
def sq : Char := '\x27'

mutual

def jsonPyRepr : Json → String
  | .null => "None"
  | .bool true => "True"
  | .bool false => "False"
  | .num n => toString n
  | .str s => String.mk (sq :: s.data ++ [sq])
  | .arr xs => "[" ++ jsonPyReprList xs ++ "]"
  | .obj fs => "\x7b" ++ jsonPyReprFields fs ++ "\x7d"

def jsonPyReprList : List Json → String
  | [] => ""
  | [x] => jsonPyRepr x
  | x :: y :: rest => jsonPyRepr x ++ ", " ++ jsonPyReprList (y :: rest)

def jsonPyReprFields : List (String × Json) → String
  | [] => ""
  | [kv] => String.mk (sq :: kv.1.data ++ [sq]) ++ ": " ++ jsonPyRepr kv.2
  | kv :: kv2 :: rest =>
    String.mk (sq :: kv.1.data ++ [sq]) ++ ": " ++ jsonPyRepr kv.2 ++ ", " ++
      jsonPyReprFields (kv2 :: rest)

end

def jsonPyStr : Json → String
  | .str s => s
  | v => jsonPyRepr v

/-- LLMClient._format_tool_result: strings pass through, dictionaries
are pretty-printed with indent 2, anything else is coerced with str(). -/
def format_tool_result : Json → String
  | .str s => s
  | .obj fs => dumpInd 0 (.obj fs)
  | v => jsonPyStr v

/-- Dictionary lookup with Python's duplicate-key semantics (json.loads
keeps the last occurrence of a repeated key). -/
def objGet (fields : List (String × Json)) (key : String) : Option Json :=
  (fields.reverse.find? (fun kv => kv.1 = key)).map (·.2)

/-- Result unwrapping of generate_response lines 290-298 applied to the
parsed subprocess stdout: a dictionary's "content" entry is the result;
a dictionary's "error" entry is re-raised; any other dictionary is used
whole.  On non-dictionary values Python's membership test or item access
raises TypeError, which the per-tool handler catches. -/
def postprocessResult : Json → Except String Json
  | .obj fields =>
    match objGet fields "content" with
    | some v => .ok v
    | none =>
      match objGet fields "error" with
      | some e => .error (jsonPyStr e)
      | none => .ok (.obj fields)
  | .arr es =>
    if es.any (fun e => match e with | .str s => s = "content" | _ => false) then
      .error "list indices must be integers or slices, not str"
    else if es.any (fun e => match e with | .str s => s = "error" | _ => false) then
      .error "list indices must be integers or slices, not str"
    else .ok (.arr es)
  | .str s =>
    if hasSub s.data "content".data then .error "string indices must be integers"
    else if hasSub s.data "error".data then .error "string indices must be integers"
    else .ok (.str s)
  | _ => .error "argument of type is not iterable"

/-- Message prefix of every per-tool error event (line 347). -/
def errPrefix (name msg : String) : String :=
  "Error executing tool " ++ name ++ ": " ++ msg

/-- The message of the UnboundLocalError Python raises when
full_response is read without ever being assigned (the interpreter's
wording quotes the variable name; the quotes are immaterial here). -/
def unboundLocalMsg : String :=
  "cannot access local variable full_response where it is not associated with a value"

/-- Path the source expects the runner script at (os.getcwd() joined
with the literal file name; the base directory is not load-bearing). -/
def toolRunnerPath : String := "tool_runner.py"

/-- The synthetic user-role message appended after a tool invocation
(line 322). -/
def synthToolMsg (name argsJson formatted : String) : String :=
  "Resultado de la herramienta " ++ name ++ " con argumentos " ++ argsJson ++ ":\n\n" ++ formatted

/-- The per-tool result block appended to the full response and emitted
as the follow-up event (lines 341-344). -/
def resultBlock (name formatted followUpText : String) : String :=
  "\n\n**Resultado de " ++ name ++ "**:\n```\n" ++ formatted ++ "\n```\n\n" ++ followUpText

/-- One iteration of the tool loop (lines 231-349).  Returns the events
yielded during the iteration, the external calls made, and the updated
full_response accumulator.  Every exception raised inside the iteration
is caught by the per-tool handler, which yields a tool_error event and
lets the loop continue; events already yielded before the exception
remain emitted. -/
def toolCallStep (env : Env) (messages : List Msg) (responseContent : String)
    (fullResponse : Option String) (tc : ToolCall) :
    List Event × List TraceEntry × Option String :=
  let ev0 : List Event := [.tool_use tc.name tc.args]
  if env.toolRunnerExists = false then
    (ev0 ++ [.tool_error (errPrefix tc.name ("Tool script not found: " ++ toolRunnerPath))],
     [], fullResponse)
  else
    let argsJson := Json.dump tc.args
    let tr1 : List TraceEntry := [.hostCall tc.name argsJson]
    match env.run tc.name argsJson with
    | .timeout =>
      (ev0 ++ [.tool_error (errPrefix tc.name
        ("Timeout executing tool " ++ tc.name ++ " (more than 30 seconds)"))],
       tr1, fullResponse)
    | .exited rc out err =>
      if rc ≠ 0 then
        (ev0 ++ [.tool_error (errPrefix tc.name
          ("Error executing tool: " ++ String.mk (pyStrip err.data)))], tr1, fullResponse)
      else
        match parseJson (String.mk (pyStrip out.data)) with
        | none =>
          (ev0 ++ [.tool_error (errPrefix tc.name "Error parsing JSON result: invalid JSON")],
           tr1, fullResponse)
        | some parsed =>
          match postprocessResult parsed with
          | .error m => (ev0 ++ [.tool_error (errPrefix tc.name m)], tr1, fullResponse)
          | .ok toolResult =>
            let formatted := format_tool_result toolResult
            let ev1 := ev0 ++ [.tool_result tc.name formatted]
            let toolMsgs := messages ++
              [⟨"assistant", responseContent⟩,
               ⟨"user", synthToolMsg tc.name argsJson formatted⟩]
            let tr2 := tr1 ++ [.modelCall toolMsgs]
            match env.model toolMsgs with
            | .error m => (ev1 ++ [.tool_error (errPrefix tc.name m)], tr2, fullResponse)
            | .ok followUpText =>
              match fullResponse with
              | none =>
                (ev1 ++ [.tool_error (errPrefix tc.name unboundLocalMsg)], tr2, none)
              | some fr =>
                let block := resultBlock tc.name formatted followUpText
                (ev1 ++ [.follow_up block], tr2, some (fr ++ block))

/-- The tool loop: strictly sequential iteration over the extracted
calls in extraction order. -/
def runTools (env : Env) (messages : List Msg) (responseContent : String) :
    List ToolCall → Option String → List Event × List TraceEntry × Option String
  | [], fullResponse => ([], [], fullResponse)
  | tc :: rest, fullResponse =>
    let s := toolCallStep env messages responseContent fullResponse tc
    let r := runTools env messages responseContent rest s.2.2
    (s.1 ++ r.1, s.2.1 ++ r.2.1, r.2.2)

/-- Conversation conversion of lines 41-44. -/
def toMessages (history : List Msg) : List Msg :=
  history.map fun m => ⟨if m.role = "user" then "user" else "assistant", m.content⟩

/-- The initial value of the full_response accumulator for a turn, and
the filtered text emitted as the initial chunk: the local variable is
assigned (lines 225-228) only when tool calls were extracted and the
mention pool is nonempty; otherwise it stays unassigned (modelled as
none). -/
def displayFor (responseContent : String) : Option String :=
  if (extract_tool_calls responseContent).isEmpty then Option.none
  else
    match lastMention (findMentions responseContent) with
    | Option.none => Option.none
    | some m =>
      some (String.mk (reassemble (splitSentences
        (responseContent.data.take (cutPos responseContent.data m.endIdx)))))

/-- LLMClient.generate_response: the whole turn.  Yields start, calls
the model, extracts tool calls, computes and emits the display text when
tools were found, runs the tool loop, then yields the completion - or,
when any uncaught exception occurs (a model-API failure, or the
UnboundLocalError on full_response when no tool produced mentions),
yields a single error event carrying the message. -/
def generate_response (history : List Msg) (env : Env) : List Event × List TraceEntry :=
  let messages := toMessages history
  match env.model messages with
  | .error m => ([.start, .error m], [.modelCall messages])
  | .ok responseContent =>
    let tools := extract_tool_calls responseContent
    let disp := displayFor responseContent
    let chunkEvents : List Event :=
      match disp with
      | some fr => [.chunk fr]
      | Option.none => []
    let loop := runTools env messages responseContent tools disp
    let finalEvent : Event :=
      match loop.2.2 with
      | some fr => .complete fr
      | Option.none => .error unboundLocalMsg
    (Event.start :: chunkEvents ++ loop.1 ++ [finalEvent],
     TraceEntry.modelCall messages :: loop.2.1)

/-!
The chat endpoint's streaming generator (app/routes/main.py, chat's
nested generate function).  A worker thread iterates the LLM generator
and pushes its chunks onto a queue, appending a final_response marker
after a complete chunk and a done marker at the end; the request thread
pops items with a 30-second timeout and forwards them as SSE records.
The worker/queue pair is sequential end to end, so it is modelled as the
produced item list; the read timeout is real time and enters the model
as an optional position at which the queue read times out.
-/

/-- Items placed on the response queue by process_llm_response. -/
inductive QItem where
  | ev (e : Event)
  | finalResponse (content : String)
  | done
deriving Repr

/-- process_llm_response: forward every chunk of the LLM generator,
append a final_response marker right after a complete chunk, and always
append done at the end. -/
def producerItems (llmEvents : List Event) : List QItem :=
  (llmEvents.flatMap fun e =>
    QItem.ev e ::
      (match e with
       | .complete c => [QItem.finalResponse c]
       | _ => [])) ++ [QItem.done]

/-- Records written to the SSE stream by the route generator. -/
inductive RouteEvent where
  | rstart
  | fwd (e : Event)
  | rerror (message : String)
  | rend (completeResponse : String)
deriving Repr

/-- Text accumulated into full_response by the route loop (chunk and
follow_up contents). -/
def accumOf : Event → String
  | .chunk c => c
  | .follow_up c => c
  | _ => ""

/-- The read loop of the route generator.  idx counts queue reads; when
it reaches the timeout position (or the queue is exhausted with no done
marker, which a real queue also surfaces as a timeout), the loop emits
the timeout error and finishes.  On done it falls through to the end
record, whose payload is the complete response when one was captured and
the accumulated text otherwise. -/
def routeLoop : List QItem → Option Nat → Nat → String → Option String → List RouteEvent
  | items, timeoutAt, idx, fullResp, completeResp =>
    if timeoutAt = some idx then
      [.rerror "Timeout esperando respuesta",
       .rend (completeResp.getD fullResp)]
    else
      match items with
      | [] =>
        [.rerror "Timeout esperando respuesta",
         .rend (completeResp.getD fullResp)]
      | .done :: _ => [.rend (completeResp.getD fullResp)]
      | .finalResponse c :: rest => routeLoop rest timeoutAt (idx + 1) fullResp (some c)
      | .ev e :: rest =>
        .fwd e :: routeLoop rest timeoutAt (idx + 1) (fullResp ++ accumOf e) completeResp

/-- The route's generate function: the start record, then the forwarding
loop, which always terminates the stream with an end record. -/
def routeGenerate (items : List QItem) (timeoutAt : Option Nat) : List RouteEvent :=
  .rstart :: routeLoop items timeoutAt 0 "" none

/-- Whole chat turn as observed by the HTTP caller: the LLM generator's
events fed through the worker queue and the route generator. -/
def chatStream (history : List Msg) (env : Env) (timeoutAt : Option Nat) : List RouteEvent :=
  routeGenerate (producerItems (generate_response history env).1) timeoutAt

/-!
The tool subprocess: tool_runner.py.  result_to_dict normalizes an
arbitrary Python value into a one-key dictionary; main parses its
arguments, connects to the MCP host, forwards the call, and prints the
normalized result as one JSON line on stdout.

Python values are modelled by PyVal.  An obj constructor carries the
attribute surface result_to_dict probes: the content attribute (hasattr
folds attribute errors into absence), the __getitem__ protocol (whose
membership test can itself raise, modelled with Except), the text
attribute, to_dict/to_json methods (calls can raise), the __dict__
entries (name/value pairs, filtered for leading underscores by the
function itself; method-valued entries are outside the model), and the
str() rendering.
-/

inductive PyVal where
  | none
  | bool (b : Bool)
  | int (n : Int)
  | float (repr : String)
  | str (s : String)
  | list (xs : List PyVal)
  | dict (kvs : List (String × PyVal))
  | obj (content : Option PyVal)
        (getitemContains : Option (Except String (Option PyVal)))
        (text : Option PyVal)
        (toDict : Option (Except String PyVal))
        (toJson : Option (Except String PyVal))
        (dictAttrs : Option (List (String × PyVal)))
        (strRepr : String)

mutual

/-- Does json.dumps succeed on the value?  Primitives, and lists and
dictionaries of serializable values, serialize; everything else raises
TypeError. -/
def serializable : PyVal → Bool
  | .none | .bool _ | .int _ | .float _ | .str _ => true
  | .list xs => serializableList xs
  | .dict kvs => serializableFields kvs
  | .obj _ _ _ _ _ _ _ => false

def serializableList : List PyVal → Bool
  | [] => true
  | x :: xs => serializable x && serializableList xs

def serializableFields : List (String × PyVal) → Bool
  | [] => true
  | kv :: kvs => serializable kv.2 && serializableFields kvs

end

mutual

/-- Python str()/repr() of a value (repr quotes strings; containers use
repr of their elements).  The exact rendering is not load-bearing. -/
def pyValRepr : PyVal → String
  | .none => "None"
  | .bool true => "True"
  | .bool false => "False"
  | .int n => toString n
  | .float r => r
  | .str s => String.mk (sq :: s.data ++ [sq])
  | .list xs => "[" ++ pyValReprList xs ++ "]"
  | .dict kvs => "\x7b" ++ pyValReprFields kvs ++ "\x7d"
  | .obj _ _ _ _ _ _ strRepr => strRepr

def pyValReprList : List PyVal → String
  | [] => ""
  | [x] => pyValRepr x
  | x :: y :: rest => pyValRepr x ++ ", " ++ pyValReprList (y :: rest)

def pyValReprFields : List (String × PyVal) → String
  | [] => ""
  | [kv] => String.mk (sq :: kv.1.data ++ [sq]) ++ ": " ++ pyValRepr kv.2
  | kv :: kv2 :: rest =>
    String.mk (sq :: kv.1.data ++ [sq]) ++ ": " ++ pyValRepr kv.2 ++ ", " ++
      pyValReprFields (kv2 :: rest)

end

def pyValStr : PyVal → String
  | .str s => s
  | v => pyValRepr v

/-- hasattr(result, attribute-name) for the content attribute. -/
def attrContent : PyVal → Option PyVal
  | .obj c _ _ _ _ _ _ => c
  | _ => Option.none

/-- Evaluation of the guard at line 48, hasattr(result, getitem) and
then of the content membership/access pair: builtin dictionaries look up
the key; builtin lists raise TypeError on the string index when the
membership test succeeds; objects carry their own behavior.  Returns
none when __getitem__ is absent, otherwise the outcome of obtaining the
content item (which may be an exception, or absence). -/
def getitemContent : PyVal → Option (Except String (Option PyVal))
  | .dict kvs =>
    some (.ok ((kvs.reverse.find? (fun kv => kv.1 = "content")).map (·.2)))
  | .list xs =>
    if xs.any (fun e => match e with | .str s => s = "content" | _ => false) then
      some (.error "list indices must be integers or slices, not str")
    else some (.ok Option.none)
  | .obj _ gi _ _ _ _ _ => gi
  | _ => Option.none

def attrText : PyVal → Option PyVal
  | .obj _ _ t _ _ _ _ => t
  | _ => Option.none

def attrToDict : PyVal → Option (Except String PyVal)
  | .obj _ _ _ td _ _ _ => td
  | _ => Option.none

def attrToJson : PyVal → Option (Except String PyVal)
  | .obj _ _ _ _ tj _ _ => tj
  | _ => Option.none

def attrDict : PyVal → Option (List (String × PyVal))
  | .obj _ _ _ _ _ da _ => da
  | _ => Option.none

/-- Processing of an extracted content value (lines 53-64): serializable
content is returned directly; content with a text attribute contributes
that attribute; anything else is coerced with str(). -/
def contentToDict (content : PyVal) : List (String × PyVal) :=
  if serializable content then [("content", content)]
  else
    match attrText content with
    | some t => [("content", t)]
    | Option.none => [("content", .str (pyValStr content))]

/-- Is the value one of the primitive types json handles directly
(line 26)? -/
def isPrimitive : PyVal → Bool
  | .none | .bool _ | .int _ | .float _ | .str _ => true
  | _ => false

def isListOrDict : PyVal → Bool
  | .list _ | .dict _ => true
  | _ => false

def isNoneVal : PyVal → Bool
  | .none => true
  | _ => false

/-- Lines 42-50: obtain a content value through the content attribute,
or through the item protocol when the attribute is absent; the item
membership test may raise. -/
def contentLookup (result : PyVal) : Except String (Option PyVal) :=
  match attrContent result with
  | some v => .ok (some v)
  | Option.none =>
    match getitemContent result with
    | some r => r
    | Option.none => .ok Option.none

/-- Attempts 3, 4 and 5 and the final string coercion (lines 66-92):
to_dict, to_json, the text attribute, the filtered __dict__, then
str(). -/
def laterAttempts (result : PyVal) : Except String (List (String × PyVal)) :=
  match attrToDict result with
  | some (.ok v) => .ok [("content", v)]
  | some (.error e) => .error e
  | Option.none =>
    match attrToJson result with
    | some (.ok v) => .ok [("content", v)]
    | some (.error e) => .error e
    | Option.none =>
      match attrText result with
      | some t => .ok [("content", t)]
      | Option.none =>
        match attrDict result with
        | some rawAttrs =>
          let attrs := rawAttrs.filter fun kv => !(kv.1.startsWith "_")
          if !attrs.isEmpty && serializableFields attrs then
            .ok [("content", .dict attrs)]
          else .ok [("content", .str (pyValStr result))]
        | Option.none => .ok [("content", .str (pyValStr result))]

/-- The body of result_to_dict, with exceptions threaded through Except
(the membership test of line 48 and the to_dict/to_json calls are the
operations inside the body that can raise past the local handlers). -/
def result_to_dict_body (result : PyVal) : Except String (List (String × PyVal)) :=
  if isPrimitive result then .ok [("content", result)]
  else if isListOrDict result && serializable result then .ok [("content", result)]
  else
    match contentLookup result with
    | .error e => .error e
    | .ok (some content) =>
      if isNoneVal content then laterAttempts result
      else .ok (contentToDict content)
    | .ok Option.none => laterAttempts result

/-- tool_runner.result_to_dict: the body wrapped in the catch-all
handler that converts any exception into a one-key error dictionary. -/
def result_to_dict (result : PyVal) : List (String × PyVal) :=
  match result_to_dict_body result with
  | .ok d => d
  | .error e => [("error", .str ("Error processing result: " ++ e))]

/-- The MCP host as seen by tool_runner.main: connect can fail, and
call_tool returns a host value or raises. -/
structure HostEnv where
  connectOk : Bool
  callTool : String → Json → Except String PyVal

/-- tool_runner.main: argument validation, host connection, the
forwarded tool call, and the printed stdout dictionary.  The second
component of the result is the list of tool names for which call_tool
was actually invoked on the host (the cross-boundary calls). -/
def toolRunnerMain (argv : List String) (host : HostEnv) :
    List (String × PyVal) × List String :=
  match argv with
  | _ :: toolName :: argsStr :: _ =>
    match parseJson argsStr with
    | Option.none => ([("error", .str "invalid tool_args_json")], [])
    | some args =>
      if host.connectOk = false then
        ([("error", .str "Could not connect to MCP server")], [])
      else
        match host.callTool toolName args with
        | .error e => ([("error", .str e)], [toolName])
        | .ok result =>
          let d := result_to_dict result
          if serializableFields d then (d, [toolName])
          else ([("content", .str (pyValStr result))], [toolName])
  | _ => ([("error", .str "Arguments required: tool_name and tool_args_json")], [])

/-!
Observers over events and traces, and structural lemmas about the tool
loop, used by the claim theorems below.
-/

def toolUseName : Event → Option String
  | .tool_use n _ => some n
  | _ => Option.none

def toolResultId : Event → Option String
  | .tool_result i _ => some i
  | _ => Option.none

def toolErrorMsg : Event → Option String
  | .tool_error m => some m
  | _ => Option.none

def isChunk : Event → Bool
  | .chunk _ => true
  | _ => false

def isComplete : Event → Bool
  | .complete _ => true
  | _ => false

def isErrorEvent : Event → Bool
  | .error _ => true
  | _ => false

def hostCallName : TraceEntry → Option String
  | .hostCall n _ => some n
  | _ => Option.none

def isModelCall : TraceEntry → Bool
  | .modelCall _ => true
  | _ => false

/-- The per-tool outcome events: a successful iteration ends in
follow_up, a failed one in tool_error. -/
def isOutcomeEvent : Event → Bool
  | .follow_up _ => true
  | .tool_error _ => true
  | _ => false

/-- Did the iteration for this call reach the follow-up generation
(script present, subprocess exit 0 within the timeout, stdout parsed,
result unwrapped)? -/
def followUpRequested (env : Env) (tc : ToolCall) : Bool :=
  env.toolRunnerExists &&
    match env.run tc.name (Json.dump tc.args) with
    | .timeout => false
    | .exited rcode out _ =>
      rcode = 0 &&
        match parseJson (String.mk (pyStrip out.data)) with
        | Option.none => false
        | some parsed => (postprocessResult parsed) matches .ok _

/-- The event lists of the successive tool-loop iterations (the loop's
events are their concatenation). -/
def stepEvents (env : Env) (messages : List Msg) (responseContent : String) :
    List ToolCall → Option String → List (List Event)
  | [], _ => []
  | tc :: rest, fullResponse =>
    let s := toolCallStep env messages responseContent fullResponse tc
    s.1 :: stepEvents env messages responseContent rest s.2.2

theorem runTools_events_flat (env : Env) (m : List Msg) (rc : String) :
    ∀ (tools : List ToolCall) (fr : Option String),
      (runTools env m rc tools fr).1 = (stepEvents env m rc tools fr).flatten := by
  intro tools
  induction tools with
  | nil => intro fr; simp [runTools, stepEvents]
  | cons tc rest ih => intro fr; simp [runTools, stepEvents, ih]

theorem toolCallStep_events_shape (env : Env) (m : List Msg) (rc : String)
    (fr : Option String) (tc : ToolCall) :
    ∃ mid last,
      (toolCallStep env m rc fr tc).1 = .tool_use tc.name tc.args :: mid ++ [last] ∧
      isOutcomeEvent last = true := by
  unfold toolCallStep
  dsimp only
  repeat' split
  all_goals first
    | exact ⟨[], _, rfl, rfl⟩
    | exact ⟨[.tool_result tc.name _], _, rfl, rfl⟩

theorem toolCallStep_toolUses (env : Env) (m : List Msg) (rc : String)
    (fr : Option String) (tc : ToolCall) :
    (toolCallStep env m rc fr tc).1.filterMap toolUseName = [tc.name] := by
  unfold toolCallStep
  dsimp only
  repeat' split
  all_goals simp [toolUseName, List.filterMap]

theorem toolCallStep_hostCalls (env : Env) (m : List Msg) (rc : String)
    (fr : Option String) (tc : ToolCall) (h : env.toolRunnerExists = true) :
    (toolCallStep env m rc fr tc).2.1.filterMap hostCallName = [tc.name] := by
  unfold toolCallStep
  rw [h]
  dsimp only
  repeat' split
  all_goals simp_all [hostCallName, List.filterMap]

theorem toolCallStep_hostCalls_sub (env : Env) (m : List Msg) (rc : String)
    (fr : Option String) (tc : ToolCall) :
    ∀ n ∈ (toolCallStep env m rc fr tc).2.1.filterMap hostCallName, n = tc.name := by
  unfold toolCallStep
  dsimp only
  repeat' split
  all_goals simp_all [hostCallName, List.filterMap]

theorem toolCallStep_modelCalls (env : Env) (m : List Msg) (rc : String)
    (fr : Option String) (tc : ToolCall) :
    (toolCallStep env m rc fr tc).2.1.countP isModelCall =
      (if followUpRequested env tc then 1 else 0) := by
  unfold toolCallStep followUpRequested
  dsimp only
  repeat' split
  all_goals simp_all [isModelCall, List.countP, List.countP.go]

theorem toolCallStep_modelCall_mem (env : Env) (m : List Msg) (rc : String)
    (fr : Option String) (tc : ToolCall) :
    ∀ msgs, TraceEntry.modelCall msgs ∈ (toolCallStep env m rc fr tc).2.1 →
      ∃ fmt, msgs = m ++
        [⟨"assistant", rc⟩, ⟨"user", synthToolMsg tc.name (Json.dump tc.args) fmt⟩] := by
  unfold toolCallStep
  dsimp only
  repeat' split
  all_goals simp_all

theorem runTools_toolUses (env : Env) (m : List Msg) (rc : String) :
    ∀ (tools : List ToolCall) (fr : Option String),
      (runTools env m rc tools fr).1.filterMap toolUseName = tools.map (·.name) := by
  intro tools
  induction tools with
  | nil => intro fr; simp [runTools]
  | cons tc rest ih =>
    intro fr
    simp only [runTools, List.filterMap_append, List.map_cons]
    rw [toolCallStep_toolUses, ih]
    rfl

theorem runTools_hostCalls (env : Env) (m : List Msg) (rc : String)
    (h : env.toolRunnerExists = true) :
    ∀ (tools : List ToolCall) (fr : Option String),
      (runTools env m rc tools fr).2.1.filterMap hostCallName = tools.map (·.name) := by
  intro tools
  induction tools with
  | nil => intro fr; simp [runTools]
  | cons tc rest ih =>
    intro fr
    simp only [runTools, List.filterMap_append, List.map_cons]
    rw [toolCallStep_hostCalls env m rc fr tc h, ih]
    rfl

theorem runTools_hostCalls_sub (env : Env) (m : List Msg) (rc : String) :
    ∀ (tools : List ToolCall) (fr : Option String),
      ∀ n ∈ (runTools env m rc tools fr).2.1.filterMap hostCallName,
        ∃ tc ∈ tools, n = tc.name := by
  intro tools
  induction tools with
  | nil => intro fr; simp [runTools]
  | cons tc rest ih =>
    intro fr n hn
    simp only [runTools, List.filterMap_append, List.mem_append] at hn
    rcases hn with hn | hn
    · exact ⟨tc, List.mem_cons_self tc rest,
        toolCallStep_hostCalls_sub env m rc fr tc n hn⟩
    · obtain ⟨tc2, htc2, hn2⟩ := ih _ n hn
      exact ⟨tc2, List.mem_cons_of_mem tc htc2, hn2⟩

theorem runTools_modelCalls (env : Env) (m : List Msg) (rc : String) :
    ∀ (tools : List ToolCall) (fr : Option String),
      (runTools env m rc tools fr).2.1.countP isModelCall =
        tools.countP (followUpRequested env) := by
  intro tools
  induction tools with
  | nil => intro fr; simp [runTools]
  | cons tc rest ih =>
    intro fr
    simp only [runTools, List.countP_append, List.countP_cons]
    rw [toolCallStep_modelCalls, ih]
    by_cases hf : followUpRequested env tc <;> simp [hf, Nat.add_comm]

theorem runTools_modelCall_mem (env : Env) (m : List Msg) (rc : String) :
    ∀ (tools : List ToolCall) (fr : Option String),
      ∀ msgs, TraceEntry.modelCall msgs ∈ (runTools env m rc tools fr).2.1 →
        ∃ tc ∈ tools, ∃ fmt, msgs = m ++
          [⟨"assistant", rc⟩, ⟨"user", synthToolMsg tc.name (Json.dump tc.args) fmt⟩] := by
  intro tools
  induction tools with
  | nil => intro fr; simp [runTools]
  | cons tc rest ih =>
    intro fr msgs hmem
    simp only [runTools, List.mem_append] at hmem
    rcases hmem with hmem | hmem
    · obtain ⟨fmt, hf⟩ := toolCallStep_modelCall_mem env m rc fr tc msgs hmem
      exact ⟨tc, List.mem_cons_self tc rest, fmt, hf⟩
    · obtain ⟨tc2, htc2, fmt, hf⟩ := ih _ msgs hmem
      exact ⟨tc2, List.mem_cons_of_mem tc htc2, fmt, hf⟩

theorem stepEvents_mem (env : Env) (m : List Msg) (rc : String) :
    ∀ (tools : List ToolCall) (fr : Option String),
      ∀ seg ∈ stepEvents env m rc tools fr,
        ∃ tc ∈ tools, ∃ mid last,
          seg = .tool_use tc.name tc.args :: mid ++ [last] ∧ isOutcomeEvent last = true := by
  intro tools
  induction tools with
  | nil => intro fr; simp [stepEvents]
  | cons tc rest ih =>
    intro fr seg hseg
    simp only [stepEvents, List.mem_cons] at hseg
    rcases hseg with hseg | hseg
    · obtain ⟨mid, last, he, ho⟩ := toolCallStep_events_shape env m rc fr tc
      exact ⟨tc, List.mem_cons_self tc rest, mid, last, hseg ▸ he, ho⟩
    · obtain ⟨tc2, htc2, mid, last, he, ho⟩ := ih _ seg hseg
      exact ⟨tc2, List.mem_cons_of_mem tc htc2, mid, last, he, ho⟩

/-- Top-level shape of a successful-generation turn. -/
theorem generate_response_ok (hist : List Msg) (env : Env) (rc : String)
    (h : env.model (toMessages hist) = .ok rc) :
    generate_response hist env =
      (Event.start ::
        (match displayFor rc with
         | some fr => [Event.chunk fr]
         | Option.none => []) ++
        (runTools env (toMessages hist) rc (extract_tool_calls rc) (displayFor rc)).1 ++
        [match (runTools env (toMessages hist) rc (extract_tool_calls rc) (displayFor rc)).2.2 with
         | some fr => Event.complete fr
         | Option.none => Event.error unboundLocalMsg],
       TraceEntry.modelCall (toMessages hist) ::
        (runTools env (toMessages hist) rc (extract_tool_calls rc) (displayFor rc)).2.1) := by
  unfold generate_response
  dsimp only
  rw [h]

theorem validateMatches_sound :
    ∀ (rs : List RawMatch), ∀ c ∈ validateMatches rs,
      c.name ∈ knownToolNames ∧
      ∃ r ∈ rs, r.name = c.name ∧
        parseJson (String.mk (pyStrip r.argSpan.data)) = some c.args := by
  intro rs
  induction rs with
  | nil => simp [validateMatches]
  | cons r rest ih =>
    intro c hc
    unfold validateMatches at hc
    by_cases hk : knownToolNames.contains r.name
    · rw [if_pos hk] at hc
      cases hp : parseJson (String.mk (pyStrip r.argSpan.data)) with
      | none =>
        rw [hp] at hc
        obtain ⟨h1, rr, hrr, h3⟩ := ih c hc
        exact ⟨h1, rr, List.mem_cons_of_mem r hrr, h3⟩
      | some a =>
        rw [hp] at hc
        rcases List.mem_cons.mp hc with hc | hc
        · subst hc
          refine ⟨List.mem_of_elem_eq_true ?_, r, List.mem_cons_self r rest, rfl, hp⟩
          simpa using hk
        · obtain ⟨h1, rr, hrr, h3⟩ := ih c hc
          exact ⟨h1, rr, List.mem_cons_of_mem r hrr, h3⟩
    · rw [if_neg hk] at hc
      obtain ⟨h1, rr, hrr, h3⟩ := ih c hc
      exact ⟨h1, rr, List.mem_cons_of_mem r hrr, h3⟩

theorem validateMatches_cons (r : RawMatch) (rs : List RawMatch) :
    validateMatches (r :: rs) =
      (if knownToolNames.contains r.name then
        match parseJson (String.mk (pyStrip r.argSpan.data)) with
        | some a => ⟨r.name, a⟩ :: validateMatches rs
        | Option.none => validateMatches rs
      else validateMatches rs) := rfl

theorem validateMatches_skip_unknown (pre post : List RawMatch) (r : RawMatch)
    (h : r.name ∉ knownToolNames) :
    validateMatches (pre ++ r :: post) = validateMatches (pre ++ post) := by
  induction pre with
  | nil =>
    simp only [List.nil_append]
    rw [validateMatches_cons, if_neg (by simpa using h)]
  | cons p ps ih =>
    simp only [List.cons_append]
    rw [validateMatches_cons, validateMatches_cons, ih]

theorem validateMatches_skip_badparse (pre post : List RawMatch) (r : RawMatch)
    (h : parseJson (String.mk (pyStrip r.argSpan.data)) = Option.none) :
    validateMatches (pre ++ r :: post) = validateMatches (pre ++ post) := by
  induction pre with
  | nil =>
    simp only [List.nil_append]
    rw [validateMatches_cons, h]
    by_cases hk : knownToolNames.contains r.name
    · rw [if_pos hk]
    · rw [if_neg hk]
  | cons p ps ih =>
    simp only [List.cons_append]
    rw [validateMatches_cons, validateMatches_cons, ih]

/-- Every accepted call comes from one of the four scanned pattern
families, whose raw matches are pooled by findMentions. -/
theorem extract_tool_calls_sound (t : String) :
    ∀ c ∈ extract_tool_calls t,
      c.name ∈ knownToolNames ∧
      ∃ r ∈ findMentions t, r.name = c.name ∧
        parseJson (String.mk (pyStrip r.argSpan.data)) = some c.args := by
  intro c hc
  unfold extract_tool_calls at hc
  have pmain : ∀ r ∈ famFind mainFam t, r ∈ findMentions t := by
    intro r hr
    unfold findMentions
    exact List.mem_append_left _ (List.mem_append_left _ (List.mem_append_left _ hr))
  have p1 : ∀ r ∈ famFind altFam1 t, r ∈ findMentions t := by
    intro r hr
    unfold findMentions
    exact List.mem_append_left _ (List.mem_append_left _ (List.mem_append_right _ hr))
  have p2 : ∀ r ∈ famFind altFam2 t, r ∈ findMentions t := by
    intro r hr
    unfold findMentions
    exact List.mem_append_left _ (List.mem_append_right _ hr)
  have p3 : ∀ r ∈ famFind altFam3 t, r ∈ findMentions t := by
    intro r hr
    unfold findMentions
    exact List.mem_append_right _ hr
  by_cases he : (validateMatches (famFind mainFam t)).isEmpty
  · rw [if_pos he] at hc
    rcases List.mem_append.mp hc with hc2 | hc2
    · rcases List.mem_append.mp hc2 with hc3 | hc3
      · obtain ⟨h1, r, hr, h3⟩ := validateMatches_sound _ c hc3
        exact ⟨h1, r, p1 r hr, h3⟩
      · obtain ⟨h1, r, hr, h3⟩ := validateMatches_sound _ c hc3
        exact ⟨h1, r, p2 r hr, h3⟩
    · obtain ⟨h1, r, hr, h3⟩ := validateMatches_sound _ c hc2
      exact ⟨h1, r, p3 r hr, h3⟩
  · rw [if_neg he] at hc
    obtain ⟨h1, r, hr, h3⟩ := validateMatches_sound _ c hc
    exact ⟨h1, r, pmain r hr, h3⟩

theorem routeLoop_timeout (items : List QItem) (tAt : Option Nat) (idx : Nat)
    (fr : String) (cr : Option String) (h : tAt = some idx) :
    routeLoop items tAt idx fr cr =
      [.rerror "Timeout esperando respuesta", .rend (cr.getD fr)] := by
  rw [routeLoop.eq_def]
  dsimp only
  rw [if_pos h]

theorem routeLoop_nil (tAt : Option Nat) (idx : Nat)
    (fr : String) (cr : Option String) (h : ¬ tAt = some idx) :
    routeLoop [] tAt idx fr cr =
      [.rerror "Timeout esperando respuesta", .rend (cr.getD fr)] := by
  rw [routeLoop.eq_def]
  dsimp only
  rw [if_neg h]

theorem routeLoop_done (rest : List QItem) (tAt : Option Nat) (idx : Nat)
    (fr : String) (cr : Option String) (h : ¬ tAt = some idx) :
    routeLoop (QItem.done :: rest) tAt idx fr cr = [.rend (cr.getD fr)] := by
  rw [routeLoop.eq_def]
  dsimp only
  rw [if_neg h]

theorem routeLoop_final (c2 : String) (rest : List QItem) (tAt : Option Nat) (idx : Nat)
    (fr : String) (cr : Option String) (h : ¬ tAt = some idx) :
    routeLoop (QItem.finalResponse c2 :: rest) tAt idx fr cr =
      routeLoop rest tAt (idx + 1) fr (some c2) := by
  rw [routeLoop.eq_def]
  dsimp only
  rw [if_neg h]

theorem routeLoop_ev (e : Event) (rest : List QItem) (tAt : Option Nat) (idx : Nat)
    (fr : String) (cr : Option String) (h : ¬ tAt = some idx) :
    routeLoop (QItem.ev e :: rest) tAt idx fr cr =
      .fwd e :: routeLoop rest tAt (idx + 1) (fr ++ accumOf e) cr := by
  rw [routeLoop.eq_def]
  dsimp only
  rw [if_neg h]

theorem routeLoop_ends (items : List QItem) :
    ∀ (tAt : Option Nat) (idx : Nat) (fr : String) (cr : Option String),
      ∃ pre c, routeLoop items tAt idx fr cr = pre ++ [RouteEvent.rend c] := by
  induction items with
  | nil =>
    intro tAt idx fr cr
    by_cases h : tAt = some idx
    · exact ⟨[.rerror "Timeout esperando respuesta"], cr.getD fr, routeLoop_timeout _ _ _ _ _ h⟩
    · exact ⟨[.rerror "Timeout esperando respuesta"], cr.getD fr, routeLoop_nil _ _ _ _ h⟩
  | cons q rest ih =>
    intro tAt idx fr cr
    by_cases h : tAt = some idx
    · exact ⟨[.rerror "Timeout esperando respuesta"], cr.getD fr, routeLoop_timeout _ _ _ _ _ h⟩
    · cases q with
      | done => exact ⟨[], cr.getD fr, routeLoop_done _ _ _ _ _ h⟩
      | finalResponse c2 =>
        obtain ⟨pre, c, hc⟩ := ih tAt (idx + 1) fr (some c2)
        exact ⟨pre, c, by rw [routeLoop_final _ _ _ _ _ _ h]; exact hc⟩
      | ev e =>
        obtain ⟨pre, c, hc⟩ := ih tAt (idx + 1) (fr ++ accumOf e) cr
        exact ⟨.fwd e :: pre, c, by rw [routeLoop_ev _ _ _ _ _ _ h, hc]; rfl⟩

theorem chatStream_ends (history : List Msg) (env : Env) (tAt : Option Nat) :
    ∃ pre c, chatStream history env tAt = pre ++ [RouteEvent.rend c] := by
  obtain ⟨pre, c, hc⟩ :=
    routeLoop_ends (producerItems (generate_response history env).1) tAt 0 "" Option.none
  exact ⟨.rstart :: pre, c, by rw [chatStream, routeGenerate, hc]; rfl⟩

/-- The sentences surviving the failure-phrase filter. -/
def keptSentences (ss : List Chars) : List Chars :=
  ss.filter fun s => !containsError s

theorem keptSentences_clean (ss : List Chars) :
    ∀ s ∈ keptSentences ss, containsError s = false := by
  intro s hs
  have := List.of_mem_filter hs
  simpa using this

theorem joinSp_cons (x : Chars) (l : List Chars) (h : l ≠ []) :
    joinSp (x :: l) = x ++ ' ' :: joinSp l := by
  cases l with
  | nil => exact absurd rfl h
  | cons y ys => rfl

theorem joinSp_merge (a b : Chars) :
    ∀ (xs ys : List Chars),
      joinSp (xs ++ (a ++ ' ' :: b) :: ys) = joinSp (xs ++ a :: b :: ys) := by
  intro xs
  induction xs with
  | nil =>
    intro ys
    cases ys with
    | nil =>
      simp only [List.nil_append]
      rfl
    | cons y ys2 =>
      simp only [List.nil_append]
      rw [joinSp_cons _ (y :: ys2) (by simp), joinSp_cons a (b :: y :: ys2) (by simp),
        joinSp_cons b (y :: ys2) (by simp)]
      simp
  | cons x xs2 ih =>
    intro ys
    simp only [List.cons_append]
    rw [joinSp_cons x (xs2 ++ (a ++ ' ' :: b) :: ys) (by simp),
      joinSp_cons x (xs2 ++ a :: b :: ys) (by simp), ih]

theorem buildChunks_joinSp :
    ∀ (ss : List Chars) (cur : Chars) (acc : List Chars),
      (∀ s ∈ ss, s ≠ []) →
      joinSp (buildChunks ss cur acc) =
        joinSp (acc ++ (if cur.isEmpty then [] else [cur]) ++ keptSentences ss) := by
  intro ss
  induction ss with
  | nil =>
    intro cur acc _
    simp [buildChunks, keptSentences]
  | cons s rest ih =>
    intro cur acc hss
    have hs : s ≠ [] := hss s (List.mem_cons_self s rest)
    have hrest : ∀ x ∈ rest, x ≠ [] := fun x hx => hss x (List.mem_cons_of_mem s hx)
    by_cases herr : containsError s = true
    · have hkept : keptSentences (s :: rest) = keptSentences rest := by
        simp [keptSentences, herr]
      by_cases hmk : containsToolMarker s = true
      · by_cases hcur : cur.isEmpty = true
        · have hb : buildChunks (s :: rest) cur acc = buildChunks rest [] acc := by
            simp [buildChunks, herr, hmk, hcur]
          rw [hb, ih [] acc hrest, hkept]
          simp [hcur]
        · have hb : buildChunks (s :: rest) cur acc = buildChunks rest [] (acc ++ [cur]) := by
            simp [buildChunks, herr, hmk, hcur]
          rw [hb, ih [] (acc ++ [cur]) hrest, hkept]
          simp [hcur]
      · have hb : buildChunks (s :: rest) cur acc = buildChunks rest cur acc := by
          simp [buildChunks, herr, hmk]
        rw [hb, ih cur acc hrest, hkept]
    · have hkept : keptSentences (s :: rest) = s :: keptSentences rest := by
        simp [keptSentences, herr]
      have hsE : List.isEmpty s = false := by
        cases s with
        | nil => exact absurd rfl hs
        | cons c cs => rfl
      have hneE : List.isEmpty (cur ++ ' ' :: s) = false := by
        cases cur with
        | nil => rfl
        | cons c cs => rfl
      by_cases hcur : cur.isEmpty = true
      · by_cases hmk : containsToolMarker s = true
        · have hb : buildChunks (s :: rest) cur acc = buildChunks rest [] (acc ++ [s]) := by
            simp [buildChunks, herr, hmk, hcur, hsE]
          rw [hb, ih [] (acc ++ [s]) hrest, hkept]
          simp [hcur]
        · have hb : buildChunks (s :: rest) cur acc = buildChunks rest s acc := by
            simp [buildChunks, herr, hmk, hcur]
          rw [hb, ih s acc hrest, hkept]
          rw [if_pos hcur, hsE]
          simp
      · by_cases hmk : containsToolMarker s = true
        · have hb : buildChunks (s :: rest) cur acc =
              buildChunks rest [] (acc ++ [cur ++ ' ' :: s]) := by
            simp [buildChunks, herr, hmk, hcur, hneE]
          rw [hb, ih [] (acc ++ [cur ++ ' ' :: s]) hrest, hkept]
          rw [show ((acc ++ [cur ++ ' ' :: s]) ++
                (if List.isEmpty ([] : Chars) = true then [] else [([] : Chars)]) ++
                keptSentences rest) =
              (acc ++ (cur ++ ' ' :: s) :: keptSentences rest) by simp]
          rw [joinSp_merge, if_neg hcur]
          simp
        · have hb : buildChunks (s :: rest) cur acc = buildChunks rest (cur ++ ' ' :: s) acc := by
            simp [buildChunks, herr, hmk, hcur]
          rw [hb, ih (cur ++ ' ' :: s) acc hrest, hkept]
          rw [hneE, if_neg hcur]
          rw [show ((acc ++ if false = true then [] else [cur ++ ' ' :: s]) ++
                keptSentences rest) =
              (acc ++ (cur ++ ' ' :: s) :: keptSentences rest) by simp]
          rw [joinSp_merge]
          simp

theorem toolCallStep_timeout (env : Env) (m : List Msg) (rc : String)
    (fr : Option String) (tc : ToolCall)
    (hx : env.toolRunnerExists = true)
    (ht : env.run tc.name (Json.dump tc.args) = .timeout) :
    toolCallStep env m rc fr tc =
      ([.tool_use tc.name tc.args,
        .tool_error (errPrefix tc.name
          ("Timeout executing tool " ++ tc.name ++ " (more than 30 seconds)"))],
       [.hostCall tc.name (Json.dump tc.args)], fr) := by
  unfold toolCallStep
  rw [hx]
  dsimp only
  rw [ht]
  simp

theorem runTools_timeout (env : Env) (m : List Msg) (rc : String)
    (hx : env.toolRunnerExists = true)
    (ht : ∀ n a, env.run n a = .timeout) :
    ∀ (tools : List ToolCall) (fr : Option String),
      runTools env m rc tools fr =
        (tools.flatMap (fun tc =>
          [.tool_use tc.name tc.args,
           .tool_error (errPrefix tc.name
             ("Timeout executing tool " ++ tc.name ++ " (more than 30 seconds)"))]),
         tools.map (fun tc => .hostCall tc.name (Json.dump tc.args)), fr) := by
  intro tools
  induction tools with
  | nil => intro fr; simp [runTools]
  | cons tc rest ih =>
    intro fr
    rw [runTools, toolCallStep_timeout env m rc fr tc hx (ht _ _), ih fr]
    simp

theorem flatMap_pair_filterMap_errs (f : ToolCall → String) :
    ∀ (tools : List ToolCall),
      (tools.flatMap (fun tc =>
        [Event.tool_use tc.name tc.args, Event.tool_error (f tc)])).filterMap toolErrorMsg =
      tools.map f := by
  intro tools
  induction tools with
  | nil => rfl
  | cons tc rest ih => simp [ih, toolErrorMsg]

theorem flatMap_pair_filterMap_results (f : ToolCall → String) :
    ∀ (tools : List ToolCall),
      (tools.flatMap (fun tc =>
        [Event.tool_use tc.name tc.args, Event.tool_error (f tc)])).filterMap toolResultId =
      [] := by
  intro tools
  induction tools with
  | nil => rfl
  | cons tc rest ih => simp [ih, toolResultId]

theorem contentToDict_shape (c : PyVal) : ∃ w, contentToDict c = [("content", w)] := by
  unfold contentToDict
  repeat' split
  all_goals exact ⟨_, rfl⟩

theorem laterAttempts_shape (v : PyVal) :
    ∀ d, laterAttempts v = .ok d → ∃ w, d = [("content", w)] := by
  intro d
  unfold laterAttempts
  dsimp only
  repeat' split
  all_goals intro h
  all_goals first
    | (cases h; exact ⟨_, rfl⟩)
    | cases h

theorem result_to_dict_body_shape (v : PyVal) :
    ∀ d, result_to_dict_body v = .ok d → ∃ w, d = [("content", w)] := by
  unfold result_to_dict_body
  intro d
  by_cases h1 : isPrimitive v = true
  · rw [if_pos h1]
    intro h
    cases h
    exact ⟨_, rfl⟩
  · rw [if_neg h1]
    by_cases h2 : (isListOrDict v && serializable v) = true
    · rw [if_pos h2]
      intro h
      cases h
      exact ⟨_, rfl⟩
    · rw [if_neg h2]
      cases hcl : contentLookup v with
      | error e => intro h; cases h
      | ok copt =>
        cases copt with
        | none =>
          dsimp only
          exact laterAttempts_shape v d
        | some content =>
          dsimp only
          by_cases h3 : isNoneVal content = true
          · rw [if_pos h3]
            exact laterAttempts_shape v d
          · rw [if_neg h3]
            intro h
            cases h
            exact contentToDict_shape content

theorem result_to_dict_shape (v : PyVal) :
    (∃ w, result_to_dict v = [("content", w)]) ∨
    (∃ s, result_to_dict v = [("error", PyVal.str s)]) := by
  unfold result_to_dict
  cases hb : result_to_dict_body v with
  | ok d =>
    left
    obtain ⟨w, hw⟩ := result_to_dict_body_shape v d hb
    exact ⟨w, hw⟩
  | error e => right; exact ⟨_, rfl⟩

theorem toolRunnerMain_shape (argv : List String) (host : HostEnv) :
    (∃ w, (toolRunnerMain argv host).1 = [("content", w)]) ∨
    (∃ s, (toolRunnerMain argv host).1 = [("error", PyVal.str s)]) := by
  rcases argv with _ | ⟨a0, argv1⟩
  · right; exact ⟨_, rfl⟩
  rcases argv1 with _ | ⟨a1, argv2⟩
  · right; exact ⟨_, rfl⟩
  rcases argv2 with _ | ⟨a2, argv3⟩
  · right; exact ⟨_, rfl⟩
  unfold toolRunnerMain
  dsimp only
  cases hp : parseJson a2 with
  | none => right; exact ⟨_, rfl⟩
  | some args =>
    dsimp only
    by_cases hc : host.connectOk = false
    · rw [if_pos hc]
      right; exact ⟨_, rfl⟩
    · rw [if_neg hc]
      cases hct : host.callTool a1 args with
      | error e => right; exact ⟨_, rfl⟩
      | ok result =>
        dsimp only
        by_cases hser : serializableFields (result_to_dict result) = true
        · rw [if_pos hser]
          exact result_to_dict_shape result
        · rw [if_neg hser]
          left; exact ⟨_, rfl⟩

/-!
Concrete fixtures used by the claim theorems and witnesses below: a
one-message conversation, model stubs returning fixed texts, and
subprocess/host stubs with fixed outcomes.
-/

def exampleHistory : List Msg := [⟨"user", "hola"⟩]

/-- Model text with two main-pattern tool calls separated by a sentence
boundary. -/
def twoToolText : String :=
  "Uso la herramienta search_medicines con argumentos: \x7b\"query\": \"a\"\x7d. Uso la herramienta get_medicine_status con argumentos: \x7b\x7d."

/-- Model text with a single main-pattern tool call. -/
def oneToolText : String :=
  "Uso la herramienta search_medicines con argumentos: \x7b\"query\": \"a\"\x7d."

def c1env : Env :=
  ⟨fun _ => .ok "Hola, soy un asistente.", true, fun _ _ => .exited 0 "" ""⟩

def c2env : Env :=
  ⟨fun msgs => if msgs.length = 1 then .ok twoToolText else .ok "Listo", true,
   fun _ _ => .exited 0 "\x7b\"content\": \"ok\"\x7d" ""⟩

def c6env : Env :=
  ⟨fun msgs => if msgs.length = 1 then .ok oneToolText else .ok "Listo", true,
   fun _ _ => .timeout⟩

def c7env : Env :=
  ⟨fun msgs => if msgs.length = 1 then .ok twoToolText else .ok "Listo", true,
   fun n _ => if n = "search_medicines" then .timeout
     else .exited 0 "\x7b\"content\": \"ok\"\x7d" ""⟩

def c8env : Env :=
  ⟨fun _ => .error "API connection error", true, fun _ _ => .exited 0 "" ""⟩

def isFwdError : RouteEvent → Bool
  | .fwd (.error _) => true
  | _ => false

/-- C1: with zero extracted tool calls the source never assigns
full_response, so the final completion yield raises UnboundLocalError
and the caller receives an error event instead of the text and a
complete event.  The claim's extractor half does hold: with no
recognized pattern extract returns nothing and the display text is the
model text unchanged.  The theorem evaluates the code on that path: the
turn's events are exactly start then error, with no chunk and no
complete event, and the stream the caller sees carries the error. -/
theorem c1_zero_toolcalls_code_bug (hist : List Msg) (env : Env) (rc : String)
    (h : env.model (toMessages hist) = .ok rc)
    (hz : extract_tool_calls rc = [])
    (hm : findMentions rc = []) :
    displayTextOf rc = rc ∧
    (generate_response hist env).1 = [.start, .error unboundLocalMsg] ∧
    (generate_response hist env).1.countP isComplete = 0 ∧
    (generate_response hist env).1.countP isChunk = 0 ∧
    chatStream hist env Option.none =
      [.rstart, .fwd .start, .fwd (.error unboundLocalMsg), .rend ""] := by
  have hd : displayFor rc = Option.none := by
    unfold displayFor
    rw [hz]
    rfl
  have hG := generate_response_ok hist env rc h
  rw [hz, hd] at hG
  simp only [runTools] at hG
  refine ⟨?_, ?_, ?_, ?_, ?_⟩
  · unfold displayTextOf
    rw [hm]
    rfl
  · rw [hG]
    rfl
  · rw [hG]
    rfl
  · rw [hG]
    rfl
  · unfold chatStream routeGenerate
    rw [hG]
    rfl

theorem c1_zero_toolcalls_code_bug_witness :
    displayTextOf "Hola, soy un asistente." = "Hola, soy un asistente." ∧
    (generate_response exampleHistory c1env).1 = [.start, .error unboundLocalMsg] ∧
    (generate_response exampleHistory c1env).1.countP isComplete = 0 ∧
    (generate_response exampleHistory c1env).1.countP isChunk = 0 ∧
    chatStream exampleHistory c1env Option.none =
      [.rstart, .fwd .start, .fwd (.error unboundLocalMsg), .rend ""] :=
  c1_zero_toolcalls_code_bug exampleHistory c1env "Hola, soy un asistente." rfl rfl rfl

/-- C7: the tool loop is strictly sequential in extraction order: the
subprocess launches recorded in the trace are exactly the extracted
names in order (so a failing call does not stop later ones), the
tool_use events are exactly the extracted names in order, the loop's
events are the concatenation of the per-call segments, and every
segment starts with that call's tool_use event and ends in an outcome
event (follow_up on success, tool_error on failure). -/
theorem c7_sequential_tools (hist : List Msg) (env : Env) (rc : String)
    (h : env.model (toMessages hist) = .ok rc)
    (hx : env.toolRunnerExists = true) :
    ((generate_response hist env).2.filterMap hostCallName =
        (extract_tool_calls rc).map (fun tc => tc.name)) ∧
    ((generate_response hist env).1.filterMap toolUseName =
        (extract_tool_calls rc).map (fun tc => tc.name)) ∧
    ((runTools env (toMessages hist) rc (extract_tool_calls rc) (displayFor rc)).1 =
        (stepEvents env (toMessages hist) rc (extract_tool_calls rc) (displayFor rc)).flatten) ∧
    (∀ (fr : Option String),
      ∀ seg ∈ stepEvents env (toMessages hist) rc (extract_tool_calls rc) fr,
        ∃ tc ∈ extract_tool_calls rc, ∃ mid last,
          seg = .tool_use tc.name tc.args :: mid ++ [last] ∧ isOutcomeEvent last = true) := by
  have hG := generate_response_ok hist env rc h
  refine ⟨?_, ?_, runTools_events_flat env (toMessages hist) rc _ _,
    fun fr => stepEvents_mem env (toMessages hist) rc _ fr⟩
  · rw [hG]
    dsimp only
    simp only [List.filterMap_cons, hostCallName]
    rw [runTools_hostCalls env (toMessages hist) rc hx]
  · rw [hG]
    dsimp only
    cases hd : displayFor rc with
    | none =>
      simp [toolUseName, runTools_toolUses]
      cases (runTools env (toMessages hist) rc (extract_tool_calls rc) Option.none).2.2 <;> rfl
    | some fr =>
      simp [toolUseName, runTools_toolUses]
      cases (runTools env (toMessages hist) rc (extract_tool_calls rc) (some fr)).2.2 <;> rfl

theorem c7_sequential_tools_witness :
    ((generate_response exampleHistory c7env).2.filterMap hostCallName =
        (extract_tool_calls twoToolText).map (fun tc => tc.name)) ∧
    ((generate_response exampleHistory c7env).1.filterMap toolUseName =
        (extract_tool_calls twoToolText).map (fun tc => tc.name)) ∧
    ((runTools c7env (toMessages exampleHistory) twoToolText (extract_tool_calls twoToolText)
        (displayFor twoToolText)).1 =
      (stepEvents c7env (toMessages exampleHistory) twoToolText (extract_tool_calls twoToolText)
        (displayFor twoToolText)).flatten) ∧
    (∀ (fr : Option String),
      ∀ seg ∈ stepEvents c7env (toMessages exampleHistory) twoToolText
          (extract_tool_calls twoToolText) fr,
        ∃ tc ∈ extract_tool_calls twoToolText, ∃ mid last,
          seg = .tool_use tc.name tc.args :: mid ++ [last] ∧ isOutcomeEvent last = true) :=
  c7_sequential_tools exampleHistory c7env twoToolText rfl rfl

/-- C8: the caller's event stream always terminates with an end record,
whatever the producer emitted and wherever a read timeout strikes; and
on a model-API exception the stream is exactly the start records, one
error event, then end, with the streamed prefix preserved in place. -/
theorem c8_stream_end :
    (∀ (history : List Msg) (env : Env) (tAt : Option Nat),
      ∃ pre c, chatStream history env tAt = pre ++ [RouteEvent.rend c]) ∧
    (chatStream exampleHistory c8env Option.none =
      [.rstart, .fwd .start, .fwd (.error "API connection error"), .rend ""]) ∧
    ((chatStream exampleHistory c8env Option.none).countP isFwdError = 1) :=
  ⟨chatStream_ends, rfl, rfl⟩

/-- C10: the subprocess result normalizer is total over the modelled
Python value domain and always yields a dictionary with exactly one
key, content or error; consequently the tool runner's printed stdout
dictionary has that same one-key shape on every path. -/
theorem c10_result_normalizer_total :
    (∀ v : PyVal,
      (∃ w, result_to_dict v = [("content", w)]) ∨
      (∃ s, result_to_dict v = [("error", PyVal.str s)])) ∧
    (∀ (argv : List String) (host : HostEnv),
      (∃ w, (toolRunnerMain argv host).1 = [("content", w)]) ∨
      (∃ s, (toolRunnerMain argv host).1 = [("error", PyVal.str s)])) :=
  ⟨result_to_dict_shape, toolRunnerMain_shape⟩

/-- C2 counterexample: with two extracted tool calls the source requests
a follow-up generation inside each loop iteration, not once after all
calls: the trace for a two-tool turn is model, host, model, host, model
- three model calls (two follow-ups, not one), and the second follow-up
generation is requested before the second tool call runs. -/
theorem c2_per_tool_followups_counterexample :
    ((generate_response exampleHistory c2env).2.map isModelCall =
      [true, false, true, false, true]) ∧
    ((generate_response exampleHistory c2env).2.countP isModelCall = 3) ∧
    ((extract_tool_calls twoToolText).length = 2) :=
  ⟨rfl, rfl, rfl⟩

/-- C2 amended: one follow-up generation is requested per successfully
invoked tool call, immediately after that call (so there are 1 + k model
calls for k successful invocations), and every follow-up generation's
conversation is a fresh copy of the base messages extended with the
assistant's full original response and a single synthetic user-role
message summarizing that one tool's name, arguments and result. -/
theorem c2_per_tool_followups_amended (hist : List Msg) (env : Env) (rc : String)
    (h : env.model (toMessages hist) = .ok rc) :
    ((generate_response hist env).2.countP isModelCall =
      1 + (extract_tool_calls rc).countP (followUpRequested env)) ∧
    (∀ msgs, TraceEntry.modelCall msgs ∈ (generate_response hist env).2.drop 1 →
      ∃ tc ∈ extract_tool_calls rc, ∃ fmt, msgs = toMessages hist ++
        [⟨"assistant", rc⟩, ⟨"user", synthToolMsg tc.name (Json.dump tc.args) fmt⟩]) := by
  have hG := generate_response_ok hist env rc h
  constructor
  · rw [hG]
    dsimp only
    rw [List.countP_cons]
    simp [isModelCall, runTools_modelCalls, Nat.add_comm]
  · rw [hG]
    dsimp only
    intro msgs hmem
    rw [List.drop_one, List.tail_cons] at hmem
    exact runTools_modelCall_mem env (toMessages hist) rc _ _ msgs hmem

theorem c2_per_tool_followups_amended_witness :
    ((generate_response exampleHistory c2env).2.countP isModelCall =
      1 + (extract_tool_calls twoToolText).countP (followUpRequested c2env)) ∧
    (∀ msgs, TraceEntry.modelCall msgs ∈ (generate_response exampleHistory c2env).2.drop 1 →
      ∃ tc ∈ extract_tool_calls twoToolText, ∃ fmt, msgs = toMessages exampleHistory ++
        [⟨"assistant", twoToolText⟩,
         ⟨"user", synthToolMsg tc.name (Json.dump tc.args) fmt⟩]) :=
  c2_per_tool_followups_amended exampleHistory c2env twoToolText rfl

/-- Model text whose tool mentions come from two different alternative
pattern families (no main-pattern match). -/
def c3text : String :=
  "Usaré la herramienta search_medicines con argumentos: \x7b\"query\": \"a\"\x7d. Llamo a la herramienta get_medicine_status con argumentos: \x7b\x7d."

/-- C3 counterexample: when the main pattern yields nothing, the source
scans all three alternative families and concatenates their accepted
calls, so the returned list can mix matches of two different families:
on c3text the result has two calls although each single family
contributes exactly one (and the main family none). -/
theorem c3_family_mixing_counterexample :
    (famFind mainFam c3text = []) ∧
    ((validateMatches (famFind altFam1 c3text)).length = 1) ∧
    ((validateMatches (famFind altFam2 c3text)).length = 1) ∧
    ((validateMatches (famFind altFam3 c3text)).length = 0) ∧
    ((extract_tool_calls c3text).length = 2) ∧
    (extract_tool_calls c3text =
      validateMatches (famFind altFam1 c3text) ++ validateMatches (famFind altFam2 c3text) ++
        validateMatches (famFind altFam3 c3text)) :=
  ⟨rfl, rfl, rfl, rfl, rfl, rfl⟩

/-- C3 amended: the main family is scanned first and, when it yields at
least one accepted call, its calls are the whole result (never mixed
with alternatives); the alternative families are consulted exactly when
the main family yielded zero accepted calls, and then all three are
scanned and their accepted calls concatenated in family order - so
matches of several alternative families can mix. -/
theorem c3_family_priority_amended :
    (∀ t : String, (validateMatches (famFind mainFam t)).isEmpty = false →
      extract_tool_calls t = validateMatches (famFind mainFam t)) ∧
    (∀ t : String, (validateMatches (famFind mainFam t)).isEmpty = true →
      extract_tool_calls t =
        validateMatches (famFind altFam1 t) ++ validateMatches (famFind altFam2 t) ++
          validateMatches (famFind altFam3 t)) := by
  constructor <;> intro t ht <;> unfold extract_tool_calls <;> simp [ht]

theorem c3_family_priority_amended_witness :
    (extract_tool_calls twoToolText = validateMatches (famFind mainFam twoToolText)) ∧
    (extract_tool_calls c3text =
      validateMatches (famFind altFam1 c3text) ++ validateMatches (famFind altFam2 c3text) ++
        validateMatches (famFind altFam3 c3text)) :=
  ⟨c3_family_priority_amended.1 twoToolText rfl,
   c3_family_priority_amended.2 c3text rfl⟩

/-- Model text whose tool-call mention is followed by a hallucinated
failure sentence with no terminal punctuation between them. -/
def c4textA : String :=
  "Uso la herramienta search_medicines con argumentos: \x7b\"query\": \"a\"\x7d Lo siento, parece que estoy teniendo problemas."

/-- The same text with a period closing the tool-call sentence. -/
def c4textB : String :=
  "Uso la herramienta search_medicines con argumentos: \x7b\"query\": \"a\"\x7d. Lo siento, parece que estoy teniendo problemas."

/-- C4 counterexample: on the spec's own example text, where no
sentence boundary separates the tool-call mention from the failure
sentence, the splitter sees one combined sentence, the failure phrase
makes the whole sentence match, and the entire sentence including the
tool-call mention is dropped: the display text is just the ellipsis
marker and does not retain the tool-call sentence. -/
theorem c4_failure_sentence_counterexample :
    ((extract_tool_calls c4textA).length = 1) ∧
    (displayTextOf c4textA = "...") ∧
    (hasSub (displayTextOf c4textA).data "Uso la herramienta".data = false) :=
  ⟨rfl, rfl, rfl⟩

/-- C4 amended: the retained text is filtered sentence-by-sentence:
every sentence matching a failure phrase is dropped and the display
text is the space-join of the surviving sentences, with an ellipsis
appended when the result lacks terminal punctuation (stated for
sentence lists without empty sentences, which arise only from a
trailing separator); no surviving sentence matches a failure phrase.
The tool-call sentence itself survives exactly when terminal
punctuation separates it from the failure text, as on c4textB. -/
theorem c4_sentence_filter_amended :
    (∀ fr : Chars, (∀ s ∈ splitSentences fr, s ≠ []) →
      reassemble (splitSentences fr) =
        (if (joinSp (keptSentences (splitSentences fr))).getLast?.elim false
              (fun c => terminalChars.contains c) then
          joinSp (keptSentences (splitSentences fr))
        else joinSp (keptSentences (splitSentences fr)) ++ "...".data)) ∧
    (∀ ss : List Chars, ∀ s ∈ keptSentences ss, containsError s = false) ∧
    (displayTextOf c4textB =
      "Uso la herramienta search_medicines con argumentos: \x7b\"query\": \"a\"\x7d.") ∧
    (hasSub (displayTextOf c4textB).data "Lo siento".data = false) := by
  refine ⟨?_, keptSentences_clean, rfl, rfl⟩
  intro fr h
  unfold reassemble
  dsimp only
  rw [buildChunks_joinSp (splitSentences fr) [] [] h]
  simp

theorem c4_sentence_filter_amended_witness :
    reassemble (splitSentences ("Hola. Adios.".data)) =
      (if (joinSp (keptSentences (splitSentences ("Hola. Adios.".data)))).getLast?.elim false
            (fun c => terminalChars.contains c) then
        joinSp (keptSentences (splitSentences ("Hola. Adios.".data)))
      else joinSp (keptSentences (splitSentences ("Hola. Adios.".data))) ++ "...".data) :=
  c4_sentence_filter_amended.1 ("Hola. Adios.".data) (by decide)

/-- A host that accepts the connection and answers every call. -/
def c5host : HostEnv := ⟨true, fun _ _ => .ok (.str "data")⟩

/-- C5 counterexample: the tool runner performs no registry check
before the cross-boundary call: invoked with a name that is in no
registry, it still forwards the call to the host (the host-call trace
names the unknown tool) and reports the host's answer instead of any
UnknownTool failure. -/
theorem c5_unknown_tool_reaches_host_counterexample :
    (toolRunnerMain ["tool_runner.py", "bogus_tool", "\x7b\x7d"] c5host =
      ([("content", PyVal.str "data")], ["bogus_tool"])) ∧
    ("bogus_tool" ∉ knownToolNames) :=
  ⟨rfl, by decide⟩

/-- C5 amended: name validation happens at extraction, not in the
invoker: every call accepted by extraction carries a name from the
hardcoded known-tool list, and consequently every subprocess launch a
turn performs uses a name from that list - but a name handed directly
to the tool runner is forwarded to the host unchecked. -/
theorem c5_extraction_gate_amended :
    (∀ t : String, ∀ c ∈ extract_tool_calls t, c.name ∈ knownToolNames) ∧
    (∀ (hist : List Msg) (env : Env) (n : String),
      n ∈ (generate_response hist env).2.filterMap hostCallName → n ∈ knownToolNames) := by
  constructor
  · intro t c hc
    exact (extract_tool_calls_sound t c hc).1
  · intro hist env n hn
    cases hm : env.model (toMessages hist) with
    | error m =>
      unfold generate_response at hn
      dsimp only at hn
      rw [hm] at hn
      simp [hostCallName] at hn
    | ok rc =>
      have hG := generate_response_ok hist env rc hm
      rw [hG] at hn
      dsimp only at hn
      rw [List.filterMap_cons] at hn
      simp only [hostCallName] at hn
      obtain ⟨tc, htc, hname⟩ := runTools_hostCalls_sub env (toMessages hist) rc _ _ n hn
      rw [hname]
      exact (extract_tool_calls_sound rc tc htc).1

theorem c5_extraction_gate_amended_witness :
    ("search_medicines" ∈ knownToolNames) ∧ ("get_medicine_status" ∈ knownToolNames) := by
  constructor
  · refine c5_extraction_gate_amended.1 oneToolText
      ⟨"search_medicines", Json.obj [("query", Json.str "a")]⟩ ?_
    rw [show extract_tool_calls oneToolText =
      [⟨"search_medicines", Json.obj [("query", Json.str "a")]⟩] from rfl]
    exact List.mem_singleton_self _
  · refine c5_extraction_gate_amended.2 exampleHistory c2env "get_medicine_status" ?_
    rw [show (generate_response exampleHistory c2env).2.filterMap hostCallName =
      ["search_medicines", "get_medicine_status"] from rfl]
    decide

theorem map_hostCall_filterMap :
    ∀ (tools : List ToolCall),
      ((tools.map (fun tc => TraceEntry.hostCall tc.name (Json.dump tc.args))).filterMap
        hostCallName) = tools.map (fun tc => tc.name) := by
  intro tools
  induction tools with
  | nil => rfl
  | cons tc rest ih => simp [hostCallName, ih]

/-- C6 counterexample: a timed-out invocation does not surface as the
envelope ToolResult with ok false and errorMessage "timeout": the turn
receives a tool_error event whose message is the per-tool error prefix
around "Timeout executing tool ... (more than 30 seconds)", no
tool_result event is emitted for the call, and no emitted message
equals "timeout". -/
theorem c6_timeout_envelope_counterexample :
    ((generate_response exampleHistory c6env).1.filterMap toolErrorMsg =
      ["Error executing tool search_medicines: Timeout executing tool search_medicines (more than 30 seconds)"]) ∧
    ((generate_response exampleHistory c6env).1.filterMap toolResultId = []) ∧
    (¬ "timeout" ∈ (generate_response exampleHistory c6env).1.filterMap toolErrorMsg) := by
  refine ⟨rfl, rfl, ?_⟩
  rw [show (generate_response exampleHistory c6env).1.filterMap toolErrorMsg =
    ["Error executing tool search_medicines: Timeout executing tool search_medicines (more than 30 seconds)"] from rfl]
  decide

/-- C6 amended: when every subprocess call times out, each extracted
tool call is aborted and yields exactly one tool_error event carrying
the timeout message (no tool_result events at all), and the turn still
launches every extracted call in order - the orchestrator does not
block on the hung invocation beyond the subprocess timeout.  (The
30-second wall-clock bound itself is real time and outside the
embedding.) -/
theorem c6_timeout_event_amended (hist : List Msg) (env : Env) (rc : String)
    (h : env.model (toMessages hist) = .ok rc)
    (hx : env.toolRunnerExists = true)
    (ht : ∀ n a, env.run n a = .timeout) :
    ((generate_response hist env).1.filterMap toolErrorMsg =
      (extract_tool_calls rc).map (fun tc =>
        errPrefix tc.name ("Timeout executing tool " ++ tc.name ++ " (more than 30 seconds)"))) ∧
    ((generate_response hist env).1.filterMap toolResultId = []) ∧
    ((generate_response hist env).2.filterMap hostCallName =
      (extract_tool_calls rc).map (fun tc => tc.name)) := by
  have hG := generate_response_ok hist env rc h
  have hRT := runTools_timeout env (toMessages hist) rc hx ht (extract_tool_calls rc)
    (displayFor rc)
  refine ⟨?_, ?_, ?_⟩
  · rw [hG]
    dsimp only
    rw [hRT]
    dsimp only
    cases hd : displayFor rc with
    | none =>
      simp only [List.filterMap_cons, List.filterMap_append, toolErrorMsg, List.nil_append]
      rw [flatMap_pair_filterMap_errs]
      simp
    | some fr =>
      simp only [List.filterMap_cons, List.filterMap_append, toolErrorMsg, List.nil_append]
      rw [flatMap_pair_filterMap_errs]
      simp [toolErrorMsg]
  · rw [hG]
    dsimp only
    rw [hRT]
    dsimp only
    cases hd : displayFor rc with
    | none =>
      simp only [List.filterMap_cons, List.filterMap_append, toolResultId, List.nil_append]
      rw [flatMap_pair_filterMap_results]
      simp
    | some fr =>
      simp only [List.filterMap_cons, List.filterMap_append, toolResultId, List.nil_append]
      rw [flatMap_pair_filterMap_results]
      simp [toolResultId]
  · rw [hG]
    dsimp only
    rw [hRT]
    dsimp only
    simp only [List.filterMap_cons, hostCallName]
    rw [map_hostCall_filterMap]

theorem c6_timeout_event_amended_witness :
    ((generate_response exampleHistory c6env).1.filterMap toolErrorMsg =
      (extract_tool_calls oneToolText).map (fun tc =>
        errPrefix tc.name ("Timeout executing tool " ++ tc.name ++ " (more than 30 seconds)"))) ∧
    ((generate_response exampleHistory c6env).1.filterMap toolResultId = []) ∧
    ((generate_response exampleHistory c6env).2.filterMap hostCallName =
      (extract_tool_calls oneToolText).map (fun tc => tc.name)) :=
  c6_timeout_event_amended exampleHistory c6env oneToolText rfl rfl (fun _ _ => rfl)

/-- A raw match whose name is not in the known-tool list. -/
def c9unknownRaw : RawMatch := ⟨"invented_tool", "\x7b\x7d", 0, 10⟩

/-- A raw match with a known name whose argument span is not valid
JSON. -/
def c9badJsonRaw : RawMatch := ⟨"search_medicines", "\x7bmal\x7d", 0, 10⟩

/-- A raw match accepted by validation. -/
def c9goodRaw : RawMatch := ⟨"get_medicine_status", "\x7b\x7d", 20, 30⟩

/-- C9: every ToolCall returned by extraction has a name in the known
tool-name set and arguments obtained by successfully parsing the
matched argument span; a match with an unknown name is discarded
silently, a match whose span is not valid JSON is discarded without
raising, and in both cases the remaining matches are still processed
(removing the offending match leaves the result unchanged). -/
theorem c9_extract_validation :
    (∀ t : String, ∀ c ∈ extract_tool_calls t,
      c.name ∈ knownToolNames ∧
      ∃ r ∈ findMentions t, r.name = c.name ∧
        parseJson (String.mk (pyStrip r.argSpan.data)) = some c.args) ∧
    (∀ (pre post : List RawMatch) (r : RawMatch), r.name ∉ knownToolNames →
      validateMatches (pre ++ r :: post) = validateMatches (pre ++ post)) ∧
    (∀ (pre post : List RawMatch) (r : RawMatch),
      parseJson (String.mk (pyStrip r.argSpan.data)) = Option.none →
      validateMatches (pre ++ r :: post) = validateMatches (pre ++ post)) :=
  ⟨extract_tool_calls_sound, validateMatches_skip_unknown, validateMatches_skip_badparse⟩

theorem c9_extract_validation_witness :
    ("search_medicines" ∈ knownToolNames ∧
      ∃ r ∈ findMentions oneToolText, r.name = "search_medicines" ∧
        parseJson (String.mk (pyStrip r.argSpan.data)) =
          some (Json.obj [("query", Json.str "a")])) ∧
    (validateMatches ([c9goodRaw] ++ c9unknownRaw :: []) =
      validateMatches ([c9goodRaw] ++ [])) ∧
    (validateMatches ([c9goodRaw] ++ c9badJsonRaw :: []) =
      validateMatches ([c9goodRaw] ++ [])) := by
  refine ⟨?_, c9_extract_validation.2.1 [c9goodRaw] [] c9unknownRaw (by decide), 
    c9_extract_validation.2.2 [c9goodRaw] [] c9badJsonRaw rfl⟩
  exact c9_extract_validation.1 oneToolText
    ⟨"search_medicines", Json.obj [("query", Json.str "a")]⟩
    (by
      rw [show extract_tool_calls oneToolText =
        [⟨"search_medicines", Json.obj [("query", Json.str "a")]⟩] from rfl]
      exact List.mem_singleton_self _)

end Medifinder
